import Mathlib

/-!
Verification development for `ghana_data/ghana_graphics.py`.

The program downloads World Bank indicator series for Ghana and the USA,
concatenates them into one tidy table sorted by year, and renders one
selected indicator as a line chart.

Modelling conventions:
* The HTTP layer is abstracted into an argument `resp : String → String → HttpResult`
  giving, for each (country, code) pair, the outcome of `requests.get(url).json()`:
  a raised exception (network failure, or a body that is not parseable JSON) or a
  parsed JSON value.
* Parsed JSON values are modelled by `PyVal`.  An element of the World Bank data
  array is carried in already-decoded form (`pyRow`); nested metadata objects are
  abstracted to the identifier strings they carry, since the program never reads
  them.  Lists of non-object elements never occur in this API and are modelled,
  like the other shapes on which `pd.DataFrame` raises, by a constructor error.
* DataFrames are lists of records holding exactly the columns the program reads.
* Numbers in the `value` column are modelled by `ℚ`.
* `pd.to_numeric(..., errors="coerce")` on the year column is modelled by
  `toNumericInt` (the API's `date` field only ever carries integer literals).
* `data.sort_values("date")` guarantees ascending order with missing keys
  placed last (the `na_position` default); with the default quicksort kind it
  does not guarantee the order of equal keys.  The model realises the sort as
  an insertion sort — one concrete implementation — and order-sensitive
  conclusions about the builder are limited to sortedness and multiset
  equality, which hold for every implementation of the sort.
* Fallible Python code returns `Except PyErr`.
-/

namespace GhanaVis

instance {ε α : Type} [DecidableEq ε] [DecidableEq α] : DecidableEq (Except ε α) :=
  fun x y =>
  match x, y with
  | .ok a, .ok b =>
    if h : a = b then .isTrue (by rw [h]) else .isFalse (fun hh => h (by cases hh; rfl))
  | .error e, .error f =>
    if h : e = f then .isTrue (by rw [h]) else .isFalse (fun hh => h (by cases hh; rfl))
  | .ok _, .error _ => .isFalse (fun hh => Except.noConfusion hh)
  | .error _, .ok _ => .isFalse (fun hh => Except.noConfusion hh)

/-! ### Configuration (module-level constants of the script) -/

def COUNTRY_GH : String := "GHA"

def COUNTRY_US : String := "USA"

/-- The dict `INDICATORS`, insertion-ordered, from display label to indicator code. -/
def INDICATORS : List (String × String) :=
  [("Child Anemia (% of children under 5)", "SH.ANM.CHLD.ZS"),
   ("Population with Safe Drinking Water (%)", "SH.H2O.SMDW.ZS"),
   ("Secondary Enrollment (% gross, both genders)", "SE.SEC.ENRR"),
   ("Educational attainment (Bachelor\x27s or equivalent) (%)", "SE.TER.CUAT.BA.ZS"),
   ("GDP per Capita (USD)", "NY.GDP.PCAP.CD")]

/-- The dict `indicator_description` from display label to explanatory text. -/
def indicator_description : List (String × String) :=
  [("Child Anemia (% of children under 5)",
    "This shows the prevalence of anemia among young children, often linked to iron and nutrient deficiencies. For a dietetics partnership, it highlights areas where interventions and research could make a tangible impact on child nutrition and public health in Ghana."),
   ("Population with Safe Drinking Water (%)",
    "Access to safe drinking water is essential for proper nutrition and health. This indicator helps the partnership identify opportunities for combined water and nutrition education programs and community interventions."),
   ("Secondary Enrollment (% gross, both genders)",
    "Secondary enrollment (% gross) shows the total number of students enrolled in secondary education as a percentage of the population in the official secondary‑school age group. It allows for fair comparison between Ghana and the USA and indicates the strength of the student pipeline for dietetics programs."),
   ("Educational attainment (Bachelor\x27s or equivalent) (%)",
    "This metric shows the proportion of adults who have completed tertiary education (education beyond high school). It indicates the pool of potential students and collaborators for research, internships, and joint curriculum development in dietetics."),
   ("GDP per Capita (USD)",
    "GDP per capita provides economic context that can affect program funding, access to food resources, and sustainability. Understanding economic conditions helps design realistic and effective nutrition interventions and educational programs.")]

/-! ### Data model -/

/-- One element of the World Bank data array, in decoded form: the two fields the
program reads (`date`, `value`) plus the country/indicator identifiers the payload
itself embeds (which `fetch_worldbank_data` overrides with its own arguments). -/
structure RawObs where
  indicatorField : String
  countryField : String
  date : String
  value : Option ℚ
deriving DecidableEq

/-- A parsed JSON value, at the resolution the program inspects it. -/
inductive PyVal where
  | pyList (elems : List PyVal)
  | pyDict (keys : List String)
  | pyRow (r : RawObs)
  | pyStr (s : String)
  | pyNull

/-- Outcome of `requests.get(url).json()`.  `requests.get` raises on network
failure and `.json()` raises on an unparseable body; a non-2xx status by itself
does not raise (no `raise_for_status` in the source), its body is parsed like
any other. -/
inductive HttpResult where
  | requestErr
  | jsonDecodeErr
  | ok (v : PyVal)

/-- Python exceptions the modelled fragment can raise. -/
inductive PyErr where
  | requestsException
  | jsonException
  | dataFrameValueErr
  | concatValueErr
  | keyErr
deriving DecidableEq

/-- Row of the DataFrame returned by `fetch_worldbank_data`: payload columns the
program reads plus the two stamped columns. -/
structure Obs where
  date : String
  value : Option ℚ
  indicator_code : String
  country : String
deriving DecidableEq

/-- Row after the builder has stamped `indicator_label`. -/
structure LObs where
  date : String
  value : Option ℚ
  indicator_code : String
  country : String
  indicator_label : String
deriving DecidableEq

/-- Row after `pd.to_numeric(data["date"], errors="coerce")`. -/
structure Row where
  date : Option Int
  value : Option ℚ
  indicator_code : String
  country : String
  indicator_label : String
deriving DecidableEq

/-! ### Indicator Fetcher (`fetch_worldbank_data`) -/

/-- Decode one element of the data array; `pd.DataFrame` turns a uniform list of
objects into one row per object. -/
def asRow : PyVal → Option RawObs
  | .pyRow r => some r
  | _ => none

/-- Decode the whole data array (all elements must be observation objects). -/
def decodeRows : List PyVal → Option (List RawObs)
  | [] => some []
  | v :: vs =>
    match asRow v, decodeRows vs with
    | some r, some rs => some (r :: rs)
    | _, _ => none

/-- Python source:
```
def fetch_worldbank_data(country, code):
    url = ...
    response = requests.get(url).json()
    if not isinstance(response, list) or len(response) < 2:
        return pd.DataFrame()
    df = pd.DataFrame(response[1])
    df["indicator_code"] = code
    df["country"] = country
    return df
```
`pd.DataFrame(None)` is an empty frame; `pd.DataFrame` raises on the remaining
scalar/object shapes of `response[1]`. -/
def fetch_worldbank_data (resp : HttpResult) (country code : String) :
    Except PyErr (List Obs) :=
  match resp with
  | .requestErr => .error .requestsException
  | .jsonDecodeErr => .error .jsonException
  | .ok v =>
    match v with
    | .pyList [] => .ok []
    | .pyList [_] => .ok []
    | .pyList (_ :: second :: _) =>
      match second with
      | .pyList rows =>
        match decodeRows rows with
        | some rs => .ok (rs.map fun r =>
            { date := r.date, value := r.value, indicator_code := code, country := country })
        | none => .error .dataFrameValueErr
      | .pyNull => .ok []
      | _ => .error .dataFrameValueErr
    | _ => .ok []

/-! ### Dataset Builder (the module-level download loop) -/

def stampLabel (label : String) (o : Obs) : LObs :=
  { date := o.date, value := o.value, indicator_code := o.indicator_code,
    country := o.country, indicator_label := label }

/-- One iteration body: fetch a (country, code) frame and stamp the label
(the stamp is only observable when the frame survives the emptiness guard). -/
def fetchLabelled (resp : String → String → HttpResult) (label code country : String) :
    Except PyErr (List LObs) :=
  (fetch_worldbank_data (resp country code) country code).map (List.map (stampLabel label))

/-- Python source:
```
dfs = []
for label, code in INDICATORS.items():
    for country in [COUNTRY_GH, COUNTRY_US]:
        df = fetch_worldbank_data(country, code)
        if not df.empty:
            df["indicator_label"] = label
            dfs.append(df)
```
Exceptions raised by a fetch abort the whole loop. -/
def collectDfs (resp : String → String → HttpResult) :
    List (String × String) → Except PyErr (List (List LObs))
  | [] => .ok []
  | (label, code) :: rest =>
    match fetchLabelled resp label code COUNTRY_GH with
    | .error e => .error e
    | .ok dGh =>
      match fetchLabelled resp label code COUNTRY_US with
      | .error e => .error e
      | .ok dUs =>
        match collectDfs resp rest with
        | .error e => .error e
        | .ok tail =>
          .ok ((if dGh.isEmpty then [] else [dGh]) ++ (if dUs.isEmpty then [] else [dUs]) ++ tail)

/-- Year comparison used by `sort_values("date")`: ascending, missing years last
(`na_position` defaults to `"last"`). -/
def dateLeB : Option Int → Option Int → Bool
  | _, none => true
  | none, some _ => false
  | some x, some y => x ≤ y

def rowLe (a b : Row) : Prop := dateLeB a.date b.date = true

instance : DecidableRel rowLe := fun a b =>
  inferInstanceAs (Decidable (dateLeB a.date b.date = true))

instance : IsTotal Row rowLe :=
  ⟨fun a b => by
    unfold rowLe
    cases a.date <;> cases b.date <;> simp [dateLeB]
    omega⟩

instance : IsTrans Row rowLe :=
  ⟨fun a b c => by
    unfold rowLe
    cases a.date <;> cases b.date <;> cases c.date <;> simp [dateLeB]
    omega⟩

/-- Accumulate decimal digits; any non-digit character makes the parse fail. -/
def digitsToNat (acc : Nat) : List Char → Option Nat
  | [] => some acc
  | c :: cs => if c.isDigit then digitsToNat (acc * 10 + (c.toNat - 48)) cs else none

/-- Model of `pd.to_numeric(..., errors="coerce")` on one year string, for the
integer literals the API's `date` field carries: an optional minus sign followed
by at least one decimal digit; anything else coerces to null (NaN). -/
def toNumericInt (s : String) : Option Int :=
  match s.data with
  | [] => none
  | '-' :: cs => if cs.isEmpty then none else (digitsToNat 0 cs).map fun n => -(n : Int)
  | cs => (digitsToNat 0 cs).map fun n => (n : Int)

/-- Model of `pd.to_numeric(..., errors="coerce")` applied to one row's year. -/
def coerceRow (o : LObs) : Row :=
  { date := toNumericInt o.date, value := o.value, indicator_code := o.indicator_code,
    country := o.country, indicator_label := o.indicator_label }

/-- Python source:
```
data = pd.concat(dfs).reset_index(drop=True)
data["date"] = pd.to_numeric(data["date"], errors="coerce")
data = data.sort_values("date")
```
`pd.concat([])` raises `ValueError: No objects to concatenate`. -/
def buildOver (specs : List (String × String)) (resp : String → String → HttpResult) :
    Except PyErr (List Row) :=
  match collectDfs resp specs with
  | .error e => .error e
  | .ok dfs =>
    if dfs.isEmpty then .error .concatValueErr
    else .ok (List.insertionSort rowLe ((dfs.flatten).map coerceRow))

/-- The dataset the script builds at startup. -/
def buildDataset (resp : String → String → HttpResult) : Except PyErr (List Row) :=
  buildOver INDICATORS resp

/-- The rows a successful fetch for (country, code) contributes, label stamped
(empty on a fetch error, where the loop would instead have aborted). -/
def fetchedRows (resp : String → String → HttpResult) (label code country : String) :
    List LObs :=
  match fetch_worldbank_data (resp country code) country code with
  | .ok rs => rs.map (stampLabel label)
  | .error _ => []

/-- The concatenation the loop produces, in call order: indicator outer,
country inner (Ghana before USA). -/
def preList (resp : String → String → HttpResult) (specs : List (String × String)) :
    List LObs :=
  specs.flatMap fun lc =>
    fetchedRows resp lc.1 lc.2 COUNTRY_GH ++ fetchedRows resp lc.1 lc.2 COUNTRY_US

/-- Whether the fetch for (country, code) returns without raising. -/
def fetchOk (resp : String → String → HttpResult) (code country : String) : Bool :=
  match fetch_worldbank_data (resp country code) country code with
  | .ok _ => true
  | .error _ => false

/-- Size of the fetch result for (country, code) (0 on a fetch error). -/
def fetchedLen (resp : String → String → HttpResult) (code country : String) : Nat :=
  match fetch_worldbank_data (resp country code) country code with
  | .ok rs => rs.length
  | .error _ => 0

/-! ### Selection/Render contract (the chart section of the script) -/

/-- Model of `Series.dropna().max()`: maximum of the non-null values, NaN (here: `none`)
when no non-null value exists. -/
def maxQ : List ℚ → Option ℚ
  | [] => none
  | q :: qs =>
    match maxQ qs with
    | none => some q
    | some m => some (max q m)

/-- Model of `ghana = data[data["country"] == COUNTRY_GH]`. -/
def ghanaView (data : List Row) : List Row :=
  data.filter fun r => r.country == COUNTRY_GH

/-- Model of `usa = data[data["country"] == COUNTRY_US]`. -/
def usaView (data : List Row) : List Row :=
  data.filter fun r => r.country == COUNTRY_US

/-- Model of `df_combined = pd.concat([df_gh_sel, df_us_sel])` where the two parts filter
the per-country views by the selected indicator code. -/
def combinedRows (data : List Row) (selected_code : String) : List Row :=
  ((ghanaView data).filter fun r => r.indicator_code == selected_code)
    ++ ((usaView data).filter fun r => r.indicator_code == selected_code)

/-- Outcome of the chart section: the no-data warning, or a figure whose y-axis
spans `[yLo, yMax]` (`yMax = none` models a NaN upper bound) together with the
description text shown below it. -/
inductive RenderResult where
  | NoData
  | Chart (rows : List Row) (yLo : ℚ) (yMax : Option ℚ) (title descr : String)
deriving DecidableEq

/-- Python source:
```
selected_code = INDICATORS[selected_label]
df_gh_sel = ghana[ghana["indicator_code"] == selected_code]
df_us_sel = usa[usa["indicator_code"] == selected_code]
df_combined = pd.concat([df_gh_sel, df_us_sel])
max_y_combined = df_combined["value"].dropna().max()
if df_combined.empty:
    st.warning("No data available for this indicator.")
else:
    fig = px.line(...); fig.update_yaxes(range=[0, max_y_combined]); ...
    st.markdown(f"**About this indicator:** {indicator_description[selected_label]}")
```
Dict subscripts raise `KeyError` on a missing key. -/
def render (data : List Row) (selected_label : String) : Except PyErr RenderResult :=
  match INDICATORS.lookup selected_label with
  | none => .error .keyErr
  | some selected_code =>
    let df_combined := combinedRows data selected_code
    let max_y := maxQ (df_combined.filterMap fun r => r.value)
    if df_combined.isEmpty then .ok .NoData
    else
      match indicator_description.lookup selected_label with
      | none => .error .keyErr
      | some descr =>
        .ok (.Chart df_combined 0 max_y (selected_label ++ ": Ghana vs USA") descr)

/-! ### Concrete response families and rows used in witnesses -/

/-- A response family in which only the GDP indicator carries data: one
observation per country, year 1990. -/
def sampleResp : String → String → HttpResult := fun country code =>
  if code == "NY.GDP.PCAP.CD" then
    .ok (.pyList
      [.pyDict ["page", "pages", "per_page", "total"],
       .pyList [.pyRow
         { indicatorField := code, countryField := country,
           date := "1990", value := some 5 }]])
  else .ok (.pyList [])

/-- A dataset row whose value is null. -/
def nullRow : Row :=
  { date := some 1990, value := none, indicator_code := "NY.GDP.PCAP.CD",
    country := "GHA", indicator_label := "GDP per Capita (USD)" }

/-- A dataset row with a non-null value. -/
def gdpRow : Row :=
  { date := some 1990, value := some 5, indicator_code := "NY.GDP.PCAP.CD",
    country := "GHA", indicator_label := "GDP per Capita (USD)" }

/-- The USA row the sample response family produces. -/
def gdpRowUs : Row :=
  { date := some 1990, value := some 5, indicator_code := "NY.GDP.PCAP.CD",
    country := "USA", indicator_label := "GDP per Capita (USD)" }

/-- A raw payload element whose embedded country and indicator identifiers
disagree with the fetch arguments. -/
def mismatchRaw : RawObs :=
  { indicatorField := "OTHER.CODE", countryField := "FRA", date := "2001", value := some 3 }

/-! ### Helper lemmas -/

theorem lookup_mem {α β : Type} [BEq α] [LawfulBEq α] :
    ∀ {l : List (α × β)} {a : α} {b : β}, l.lookup a = some b → (a, b) ∈ l := by
  intro l
  induction l with
  | nil => intro a b h; simp [List.lookup] at h
  | cons p rest ih =>
    intro a b h
    obtain ⟨k, v⟩ := p
    cases hk : a == k with
    | true =>
      rw [List.lookup, hk] at h
      obtain rfl : v = b := by cases h; rfl
      have hak : a = k := eq_of_beq hk
      subst hak
      exact List.mem_cons_self _ _
    | false =>
      rw [List.lookup, hk] at h
      exact List.mem_cons_of_mem _ (ih h)

/-- The five configured labels all have a description entry. -/
theorem desc_of_ind {label code : String} (h : INDICATORS.lookup label = some code) :
    ∃ s, indicator_description.lookup label = some s := by
  have hmem := lookup_mem h
  simp only [INDICATORS, List.mem_cons, List.not_mem_nil, or_false] at hmem
  rcases hmem with h1 | h1 | h1 | h1 | h1 <;>
    (rw [Prod.mk.injEq] at h1; obtain ⟨rfl, rfl⟩ := h1; exact ⟨_, rfl⟩)

/-- The configured indicator codes are pairwise distinct: a code determines its
(label, code) pair. -/
theorem ind_code_inj : ∀ p ∈ INDICATORS, ∀ q ∈ INDICATORS, p.2 = q.2 → p = q := by decide

/-- The configured labels are pairwise distinct: a label determines its pair. -/
theorem ind_label_inj : ∀ p ∈ INDICATORS, ∀ q ∈ INDICATORS, p.1 = q.1 → p = q := by decide

/-- Every row of a successful fetch carries the country and indicator code the
call was made with. -/
theorem fetch_stamp {resp : HttpResult} {country code : String} {rs : List Obs}
    (h : fetch_worldbank_data resp country code = .ok rs) :
    ∀ o ∈ rs, o.country = country ∧ o.indicator_code = code := by
  intro o ho
  unfold fetch_worldbank_data at h
  repeat' split at h
  all_goals try exact Except.noConfusion h
  all_goals injection h with h
  all_goals subst h
  all_goals try cases ho
  rcases List.mem_map.1 ho with ⟨r, -, rfl⟩
  exact ⟨rfl, rfl⟩

theorem maxQ_cons_ne_none (q : ℚ) (qs : List ℚ) : maxQ (q :: qs) ≠ none := by
  rw [maxQ]
  cases hq : maxQ qs <;> simp

theorem maxQ_isSome {qs : List ℚ} (h : qs ≠ []) : ∃ m, maxQ qs = some m := by
  cases qs with
  | nil => exact absurd rfl h
  | cons q l =>
    cases hm : maxQ (q :: l) with
    | none => exact absurd hm (maxQ_cons_ne_none q l)
    | some m => exact ⟨m, rfl⟩

theorem le_maxQ : ∀ {qs : List ℚ} {m : ℚ}, maxQ qs = some m → ∀ q ∈ qs, q ≤ m := by
  intro qs
  induction qs with
  | nil => intro m _ q hq; cases hq
  | cons a l ih =>
    intro m h q hq
    rw [maxQ] at h
    cases hl : maxQ l with
    | none =>
      rw [hl] at h
      injection h with h
      subst h
      rcases List.mem_cons.1 hq with rfl | hq'
      · exact le_refl _
      · cases l with
        | nil => cases hq'
        | cons b bs => exact absurd hl (maxQ_cons_ne_none b bs)
    | some m' =>
      rw [hl] at h
      injection h with h
      subst h
      rcases List.mem_cons.1 hq with rfl | hq'
      · exact le_max_left _ _
      · exact le_trans (ih hl q hq') (le_max_right _ _)

/-- Concatenating two disjoint filters of a list is a permutation of filtering
by the disjunction. -/
theorem filter_append_perm_of_disjoint {α : Type} (p q : α → Bool) (l : List α)
    (hpq : ∀ a, ¬(p a = true ∧ q a = true)) :
    (l.filter p ++ l.filter q).Perm (l.filter fun a => p a || q a) := by
  induction l with
  | nil => simp
  | cons a l ih =>
    by_cases hp : p a = true
    · have hq : q a = false := by
        cases hqa : q a
        · rfl
        · exact absurd ⟨hp, hqa⟩ (hpq a)
      simp only [List.filter_cons, hp, hq, Bool.true_or, if_true, Bool.false_eq_true, if_false,
        List.cons_append]
      exact ih.cons a
    · have hp' : p a = false := by
        cases hpa : p a
        · rfl
        · exact absurd hpa hp
      by_cases hq : q a = true
      · simp only [List.filter_cons, hp', hq, Bool.false_or, if_true, Bool.false_eq_true, if_false]
        exact List.perm_middle.trans (ih.cons a)
      · have hq' : q a = false := by
          cases hqa : q a
          · rfl
          · exact absurd hqa hq
        simp only [List.filter_cons, hp', hq', Bool.false_or, Bool.false_eq_true, if_false]
        exact ih

/-- Rows of one surviving per-(country, indicator) frame: stamped with the
loop's label, fetched with the loop's country and code, from a non-empty
successful fetch. -/
theorem fetchLabelled_mem {resp : String → String → HttpResult} {label code country : String}
    {d : List LObs} (hf : fetchLabelled resp label code country = .ok d)
    (hd : d ≠ []) (o : LObs) (ho : o ∈ d) :
    o.indicator_label = label ∧ o.indicator_code = code ∧ o.country = country ∧
    ∃ rs, fetch_worldbank_data (resp country code) country code = .ok rs ∧ rs ≠ [] := by
  rw [fetchLabelled] at hf
  cases hfe : fetch_worldbank_data (resp country code) country code with
  | error e => rw [hfe] at hf; cases hf
  | ok rs =>
    rw [hfe] at hf
    simp only [Except.map] at hf
    injection hf with hf
    subst hf
    rcases List.mem_map.1 ho with ⟨x, hx, rfl⟩
    obtain ⟨hc, hk⟩ := fetch_stamp hfe x hx
    refine ⟨rfl, hk, hc, rs, rfl, fun h0 => hd (by simp [h0])⟩

/-- When every fetch of the loop returns an empty frame, no frame survives the
guard and the loop produces no objects at all. -/
theorem collect_empty {resp : String → String → HttpResult} :
    ∀ {specs : List (String × String)},
      (∀ p ∈ specs, ∀ c ∈ [COUNTRY_GH, COUNTRY_US],
        fetch_worldbank_data (resp c p.2) c p.2 = .ok []) →
      collectDfs resp specs = .ok [] := by
  intro specs
  induction specs with
  | nil => intro _; rfl
  | cons p rest ih =>
    intro h
    obtain ⟨label, code⟩ := p
    have hGh := h (label, code) (List.mem_cons_self _ _) COUNTRY_GH (by simp)
    have hUs := h (label, code) (List.mem_cons_self _ _) COUNTRY_US (by simp)
    have htail : collectDfs resp rest = .ok [] :=
      ih fun q hq c hc => h q (List.mem_cons_of_mem _ hq) c hc
    simp only at hGh hUs
    simp [collectDfs, fetchLabelled, hGh, hUs, htail, Except.map]

/-- When every fetch of the loop returns without raising, the loop returns, and
the surviving frames flatten to `preList` (the non-empty fetch results, label
stamped, in call order); every surviving frame is non-empty. -/
theorem collect_ok {resp : String → String → HttpResult} :
    ∀ {specs : List (String × String)},
      (∀ p ∈ specs, fetchOk resp p.2 COUNTRY_GH = true ∧ fetchOk resp p.2 COUNTRY_US = true) →
      ∃ dfs, collectDfs resp specs = .ok dfs ∧ dfs.flatten = preList resp specs ∧
        ∀ df ∈ dfs, df ≠ [] := by
  intro specs
  induction specs with
  | nil => intro _; exact ⟨[], rfl, rfl, by simp⟩
  | cons p rest ih =>
    intro h
    obtain ⟨label, code⟩ := p
    obtain ⟨hG, hU⟩ := h (label, code) (List.mem_cons_self _ _)
    obtain ⟨dfs, hdfs, hflat, hne⟩ := ih fun q hq => h q (List.mem_cons_of_mem _ hq)
    simp only [fetchOk] at hG hU
    cases hfG : fetch_worldbank_data (resp COUNTRY_GH code) COUNTRY_GH code with
    | error e => rw [hfG] at hG; cases hG
    | ok rsG =>
    cases hfU : fetch_worldbank_data (resp COUNTRY_US code) COUNTRY_US code with
    | error e => rw [hfU] at hU; cases hU
    | ok rsU =>
    refine ⟨((if (rsG.map (stampLabel label)).isEmpty then [] else [rsG.map (stampLabel label)]) ++
        (if (rsU.map (stampLabel label)).isEmpty then [] else [rsU.map (stampLabel label)]) ++ dfs),
      ?_, ?_, ?_⟩
    · simp [collectDfs, fetchLabelled, hfG, hfU, hdfs, Except.map]
    · have hblockG : (if (rsG.map (stampLabel label)).isEmpty then ([] : List (List LObs))
          else [rsG.map (stampLabel label)]).flatten = fetchedRows resp label code COUNTRY_GH := by
        simp only [fetchedRows, hfG]
        by_cases hrs : (rsG.map (stampLabel label)).isEmpty
        · rw [if_pos hrs]
          rw [List.isEmpty_iff] at hrs
          simp [hrs]
        · rw [if_neg hrs]; simp
      have hblockU : (if (rsU.map (stampLabel label)).isEmpty then ([] : List (List LObs))
          else [rsU.map (stampLabel label)]).flatten = fetchedRows resp label code COUNTRY_US := by
        simp only [fetchedRows, hfU]
        by_cases hrs : (rsU.map (stampLabel label)).isEmpty
        · rw [if_pos hrs]
          rw [List.isEmpty_iff] at hrs
          simp [hrs]
        · rw [if_neg hrs]; simp
      simp only [List.flatten_append, hblockG, hblockU, hflat, preList, List.flatMap_cons,
        List.append_assoc]
    · intro df hdf
      rcases List.mem_append.1 hdf with hdf' | hdf'
      · rcases List.mem_append.1 hdf' with hdf'' | hdf''
        · by_cases hrs : (rsG.map (stampLabel label)).isEmpty
          · rw [if_pos hrs] at hdf''; cases hdf''
          · rw [if_neg hrs] at hdf''
            rcases List.mem_cons.1 hdf'' with rfl | habs
            · rwa [Ne, ← List.isEmpty_iff]
            · cases habs
        · by_cases hrs : (rsU.map (stampLabel label)).isEmpty
          · rw [if_pos hrs] at hdf''; cases hdf''
          · rw [if_neg hrs] at hdf''
            rcases List.mem_cons.1 hdf'' with rfl | habs
            · rwa [Ne, ← List.isEmpty_iff]
            · cases habs
      · exact hne df hdf'

/-- Every object produced by the loop belongs to the configured cross-product:
its label/code pair is one of the specs, its country one of the two configured
countries, and its originating fetch succeeded and was non-empty. -/
theorem collect_flatten_mem {resp : String → String → HttpResult} :
    ∀ {specs : List (String × String)} {dfs : List (List LObs)},
      collectDfs resp specs = .ok dfs →
      ∀ o ∈ dfs.flatten,
        (o.indicator_label, o.indicator_code) ∈ specs ∧
        (o.country = COUNTRY_GH ∨ o.country = COUNTRY_US) ∧
        ∃ rs, fetch_worldbank_data (resp o.country o.indicator_code) o.country o.indicator_code
            = .ok rs ∧ rs ≠ [] := by
  intro specs
  induction specs with
  | nil =>
    intro dfs h o ho
    injection h with h
    subst h
    cases ho
  | cons p rest ih =>
    intro dfs h o ho
    obtain ⟨label, code⟩ := p
    rw [collectDfs] at h
    cases hfG : fetchLabelled resp label code COUNTRY_GH with
    | error e => rw [hfG] at h; cases h
    | ok dGh =>
    rw [hfG] at h
    cases hfU : fetchLabelled resp label code COUNTRY_US with
    | error e => rw [hfU] at h; cases h
    | ok dUs =>
    rw [hfU] at h
    cases hrest : collectDfs resp rest with
    | error e => rw [hrest] at h; cases h
    | ok tail =>
    rw [hrest] at h
    injection h with h
    subst h
    rcases List.mem_flatten.1 ho with ⟨df, hdf, hodf⟩
    simp only [List.mem_append] at hdf
    rcases hdf with (hdf' | hdf') | hdf'
    · by_cases hrs : dGh.isEmpty
      · rw [if_pos hrs] at hdf'; cases hdf'
      · rw [if_neg hrs] at hdf'
        rcases List.mem_cons.1 hdf' with rfl | habs
        · obtain ⟨h1, h2, h3, h4⟩ := fetchLabelled_mem hfG
            (by rwa [Ne, ← List.isEmpty_iff]) o hodf
          exact ⟨by rw [h1, h2]; exact List.mem_cons_self _ _, Or.inl h3,
            by rw [h2, h3]; exact h4⟩
        · cases habs
    · by_cases hrs : dUs.isEmpty
      · rw [if_pos hrs] at hdf'; cases hdf'
      · rw [if_neg hrs] at hdf'
        rcases List.mem_cons.1 hdf' with rfl | habs
        · obtain ⟨h1, h2, h3, h4⟩ := fetchLabelled_mem hfU
            (by rwa [Ne, ← List.isEmpty_iff]) o hodf
          exact ⟨by rw [h1, h2]; exact List.mem_cons_self _ _, Or.inr h3,
            by rw [h2, h3]; exact h4⟩
        · cases habs
    · obtain ⟨h1, h2, h3⟩ := ih hrest o (List.mem_flatten.2 ⟨df, hdf', hodf⟩)
      exact ⟨List.mem_cons_of_mem _ h1, h2, h3⟩

/-- Unpacking a successful `buildOver`: the loop succeeded, at least one frame
survived, and the dataset is the sorted coercion of the flattened frames. -/
theorem build_eq {specs : List (String × String)} {resp : String → String → HttpResult}
    {d : List Row} (h : buildOver specs resp = .ok d) :
    ∃ dfs, collectDfs resp specs = .ok dfs ∧ dfs ≠ [] ∧
      d = List.insertionSort rowLe ((dfs.flatten).map coerceRow) := by
  rw [buildOver] at h
  cases hc : collectDfs resp specs with
  | error e => rw [hc] at h; cases h
  | ok dfs =>
    simp only [hc] at h
    by_cases he : dfs.isEmpty
    · rw [if_pos he] at h; cases h
    · rw [if_neg he] at h
      injection h with h
      exact ⟨dfs, rfl, by rwa [Ne, ← List.isEmpty_iff], h.symm⟩

/-- The builder's per-row invariant. -/
theorem build_mem {specs : List (String × String)} {resp : String → String → HttpResult}
    {d : List Row} (h : buildOver specs resp = .ok d) :
    ∀ r ∈ d, (r.indicator_label, r.indicator_code) ∈ specs ∧
      (r.country = COUNTRY_GH ∨ r.country = COUNTRY_US) ∧
      ∃ rs, fetch_worldbank_data (resp r.country r.indicator_code) r.country r.indicator_code
          = .ok rs ∧ rs ≠ [] := by
  obtain ⟨dfs, hc, -, rfl⟩ := build_eq h
  intro r hr
  rw [List.mem_insertionSort] at hr
  rcases List.mem_map.1 hr with ⟨o, ho, rfl⟩
  exact collect_flatten_mem hc o ho

/-- Any dataset the builder returns is sorted by (coerced) year, missing years
last. -/
theorem build_sorted {specs : List (String × String)} {resp : String → String → HttpResult}
    {d : List Row} (h : buildOver specs resp = .ok d) : List.Sorted rowLe d := by
  obtain ⟨dfs, -, -, rfl⟩ := build_eq h
  exact List.sorted_insertionSort rowLe _

theorem fetchedRows_length {resp : String → String → HttpResult} {label code country : String} :
    (fetchedRows resp label code country).length = fetchedLen resp code country := by
  unfold fetchedRows fetchedLen
  cases fetch_worldbank_data (resp country code) country code <;> simp

/-- The concatenated length is the sum, over the cross-product in call order, of
the fetch result sizes. -/
theorem preList_length {resp : String → String → HttpResult} :
    ∀ specs : List (String × String),
      (preList resp specs).length =
        (specs.map fun lc =>
          fetchedLen resp lc.2 COUNTRY_GH + fetchedLen resp lc.2 COUNTRY_US).sum := by
  intro specs
  induction specs with
  | nil => rfl
  | cons p rest ih =>
    obtain ⟨label, code⟩ := p
    simp only [preList, List.flatMap_cons, List.length_append, List.map_cons, List.sum_cons]
    simp only [preList] at ih
    rw [ih, fetchedRows_length, fetchedRows_length]

/-- A row of the dataset that matches the selected code and one of the two
country views ends up in the combined frame. -/
theorem mem_combined {d : List Row} {code : String} {r : Row} (hr : r ∈ d)
    (hcountry : r.country = COUNTRY_GH ∨ r.country = COUNTRY_US)
    (hcode : r.indicator_code = code) : r ∈ combinedRows d code := by
  unfold combinedRows ghanaView usaView
  rcases hcountry with h | h
  · exact List.mem_append_left _
      (List.mem_filter.2 ⟨List.mem_filter.2 ⟨hr, by simp [h]⟩, by simp [hcode]⟩)
  · exact List.mem_append_right _
      (List.mem_filter.2 ⟨List.mem_filter.2 ⟨hr, by simp [h]⟩, by simp [hcode]⟩)

/-- The combined frame is empty exactly when no row of the dataset matches the
selected code for either configured country. -/
theorem combined_eq_nil_iff (d : List Row) (code : String) :
    combinedRows d code = [] ↔
      ∀ r ∈ d, ¬((r.country = COUNTRY_GH ∨ r.country = COUNTRY_US) ∧
        r.indicator_code = code) := by
  constructor
  · intro hnil r hr hmatch
    exact List.ne_nil_of_mem (mem_combined hr hmatch.1 hmatch.2) hnil
  · intro hall
    unfold combinedRows ghanaView usaView
    rw [List.append_eq_nil, List.filter_filter, List.filter_filter,
      List.filter_eq_nil_iff, List.filter_eq_nil_iff]
    constructor
    · intro r hr hb
      simp only [Bool.and_eq_true, beq_iff_eq] at hb
      exact hall r hr ⟨Or.inl hb.2, hb.1⟩
    · intro r hr hb
      simp only [Bool.and_eq_true, beq_iff_eq] at hb
      exact hall r hr ⟨Or.inr hb.2, hb.1⟩

/-- How `render` evaluates for a configured label, by emptiness of the combined
frame. -/
theorem render_eq (d : List Row) (label code : String)
    (hc : INDICATORS.lookup label = some code) :
    (combinedRows d code = [] → render d label = .ok .NoData) ∧
    (combinedRows d code ≠ [] → ∃ ds, indicator_description.lookup label = some ds ∧
      render d label = .ok (.Chart (combinedRows d code) 0
        (maxQ ((combinedRows d code).filterMap fun r => r.value))
        (label ++ ": Ghana vs USA") ds)) := by
  constructor
  · intro hnil
    simp only [render, hc, hnil]
    rfl
  · intro hne
    obtain ⟨ds, hds⟩ := desc_of_ind hc
    refine ⟨ds, hds, ?_⟩
    simp only [render, hc, hds]
    rw [if_neg (by simpa [List.isEmpty_iff] using hne)]

/-! ### Claims -/

/-- C1, counterexample. The claim says `render` yields `NoData` whenever
every matching record has a null value.  On a dataset holding one matching
record whose value is null, the code renders a chart (the emptiness guard
tests only `df_combined.empty`, not the values), so the result is not
`NoData`. -/
theorem c1_counterexample : render [nullRow] "GDP per Capita (USD)" ≠ .ok .NoData := by
  decide

/-- C1 (amended). For every dataset and configured selected label, `render`
yields `NoData` exactly when no record matches the mapped indicator code for
either configured country; when matching records exist a `Chart` is produced
even if every matching value is null (its y-axis upper bound is then the
undefined NaN). -/
theorem c1_render_nodata_iff (d : List Row) (label code : String)
    (hc : INDICATORS.lookup label = some code) :
    (render d label = .ok .NoData ↔
      ∀ r ∈ d, ¬((r.country = COUNTRY_GH ∨ r.country = COUNTRY_US) ∧
        r.indicator_code = code)) ∧
    ((∃ r ∈ d, (r.country = COUNTRY_GH ∨ r.country = COUNTRY_US) ∧
        r.indicator_code = code) →
      ∃ m t ds, render d label = .ok (.Chart (combinedRows d code) 0 m t ds)) := by
  obtain ⟨hnil, hchart⟩ := render_eq d label code hc
  constructor
  · constructor
    · intro hnodata
      rw [← combined_eq_nil_iff]
      by_contra hne
      obtain ⟨ds, -, hch⟩ := hchart hne
      rw [hnodata] at hch
      injection hch with hch
      cases hch
    · intro hall
      exact hnil ((combined_eq_nil_iff d code).2 hall)
  · rintro ⟨r, hr, hmatch⟩
    have hne : combinedRows d code ≠ [] :=
      List.ne_nil_of_mem (mem_combined hr hmatch.1 hmatch.2)
    obtain ⟨ds, -, hch⟩ := hchart hne
    exact ⟨_, _, ds, hch⟩

/-- C1, witness. The amended claim at the concrete all-null dataset. -/
theorem c1_witness :
    (render [nullRow] "GDP per Capita (USD)" = .ok .NoData ↔
      ∀ r ∈ [nullRow], ¬((r.country = COUNTRY_GH ∨ r.country = COUNTRY_US) ∧
        r.indicator_code = "NY.GDP.PCAP.CD")) ∧
    ((∃ r ∈ [nullRow], (r.country = COUNTRY_GH ∨ r.country = COUNTRY_US) ∧
        r.indicator_code = "NY.GDP.PCAP.CD") →
      ∃ m t ds, render [nullRow] "GDP per Capita (USD)"
        = .ok (.Chart (combinedRows [nullRow] "NY.GDP.PCAP.CD") 0 m t ds)) :=
  c1_render_nodata_iff [nullRow] "GDP per Capita (USD)" "NY.GDP.PCAP.CD" (by decide)

/-- C2, counterexample. The claim says that when every fetch returns an
empty sequence, `build` returns an empty Dataset rather than raising.  With
every response a dict-shaped error body, every fetch returns empty, no frame
survives the guard, and `pd.concat([])` raises `ValueError` — `build` produces
an error, not an empty Dataset. -/
theorem c2_counterexample :
    buildDataset (fun _ _ => .ok (.pyDict ["message"])) = .error .concatValueErr := by
  decide

/-- C2 (amended). For every configuration, if every Fetcher call returns an
empty sequence then `build` raises the concat error (`pd.concat` with no
objects), rather than returning an empty Dataset. -/
theorem c2_all_empty_raises (resp : String → String → HttpResult)
    (h : ∀ p ∈ INDICATORS, ∀ c ∈ [COUNTRY_GH, COUNTRY_US],
      fetch_worldbank_data (resp c p.2) c p.2 = .ok []) :
    buildDataset resp = .error .concatValueErr := by
  rw [buildDataset, buildOver, collect_empty h]
  rfl

/-- C2, witness. The amended claim at a response family whose bodies are
all non-list JSON values. -/
theorem c2_witness :
    buildDataset (fun _ _ => .ok (.pyStr "upstream error")) = .error .concatValueErr :=
  c2_all_empty_raises (fun _ _ => .ok (.pyStr "upstream error")) (by decide)

/-- C3. For every well-formed API response (a two-element list whose second
element is the data array), `fetch` produces exactly one record per element of
the data array, each stamped with the country and indicator code passed in,
overriding whatever the payload embeds. -/
theorem c3_fetch_wellformed (metaObj : PyVal) (rows : List RawObs) (country code : String) :
    ∃ rs, fetch_worldbank_data (.ok (.pyList [metaObj, .pyList (rows.map PyVal.pyRow)]))
        country code = .ok rs ∧
      rs.length = rows.length ∧
      ∀ o ∈ rs, o.country = country ∧ o.indicator_code = code := by
  have hmap : decodeRows (rows.map PyVal.pyRow) = some rows := by
    induction rows with
    | nil => rfl
    | cons r rest ih => simp [decodeRows, asRow, ih]
  refine ⟨rows.map (fun r =>
    { date := r.date, value := r.value, indicator_code := code, country := country }),
    ?_, by simp, ?_⟩
  · simp only [fetch_worldbank_data, hmap]
  · intro o ho
    rcases List.mem_map.1 ho with ⟨r, -, rfl⟩
    exact ⟨rfl, rfl⟩

/-- C3, witness. The well-formed-response contract at a concrete payload
whose embedded country and indicator disagree with the arguments. -/
theorem c3_witness :
    ∃ rs, fetch_worldbank_data
        (.ok (.pyList [.pyDict ["page"], .pyList ([mismatchRaw].map PyVal.pyRow)]))
        "GHA" "NY.GDP.PCAP.CD" = .ok rs ∧
      rs.length = [mismatchRaw].length ∧
      ∀ o ∈ rs, o.country = "GHA" ∧ o.indicator_code = "NY.GDP.PCAP.CD" :=
  c3_fetch_wellformed (.pyDict ["page"]) [mismatchRaw] "GHA" "NY.GDP.PCAP.CD"

/-- C4, counterexample. The claim says that for every family of fetch
results `build` produces a Dataset whose size equals the sum of the non-empty
result sizes.  At the family in which every fetch result is empty (every
response a too-short list) that sum is 0, yet `build` raises the concat error
instead of producing any Dataset. -/
theorem c4_counterexample :
    buildOver INDICATORS (fun _ _ => .ok (.pyList [.pyDict ["page"]]))
      = .error .concatValueErr := by
  decide

/-- C4 (amended). For every family of fetch results over the indicator
specs and the two countries in which no fetch raises and at least one result is
non-empty, `build` iterates the cross-product indicator-outer/country-inner,
skips empty results, and produces a Dataset whose size is the sum of the fetch
result sizes, each year coerced to numeric with failures becoming null, the
rows a permutation of the concatenation in call order, sorted ascending by
numeric year (null years last).  The order among rows of equal year is
implementation-defined in the source (`sort_values` defaults to quicksort), so
no tie order is asserted. -/
theorem c4_build_shape (specs : List (String × String)) (resp : String → String → HttpResult)
    (hok : ∀ p ∈ specs, fetchOk resp p.2 COUNTRY_GH = true ∧ fetchOk resp p.2 COUNTRY_US = true)
    (hne : ∃ p ∈ specs, fetchedLen resp p.2 COUNTRY_GH ≠ 0 ∨ fetchedLen resp p.2 COUNTRY_US ≠ 0) :
    ∃ d, buildOver specs resp = .ok d ∧
      d.length = (specs.map fun lc =>
        fetchedLen resp lc.2 COUNTRY_GH + fetchedLen resp lc.2 COUNTRY_US).sum ∧
      d.Perm ((preList resp specs).map coerceRow) ∧
      List.Sorted rowLe d := by
  obtain ⟨dfs, hdfs, hflat, -⟩ := collect_ok hok
  have hlenpos : 0 < (preList resp specs).length := by
    rw [preList_length]
    obtain ⟨p, hp, hlen⟩ := hne
    have hle := List.single_le_sum
      (fun (b : ℕ) _ => Nat.zero_le b)
      (fetchedLen resp p.2 COUNTRY_GH + fetchedLen resp p.2 COUNTRY_US)
      (List.mem_map_of_mem
        (fun lc => fetchedLen resp lc.2 COUNTRY_GH + fetchedLen resp lc.2 COUNTRY_US) hp)
    omega
  have hdfs_ne : dfs ≠ [] := by
    intro h0
    rw [h0] at hflat
    rw [← hflat] at hlenpos
    simp at hlenpos
  refine ⟨List.insertionSort rowLe ((dfs.flatten).map coerceRow), ?_, ?_, ?_, ?_⟩
  · simp only [buildOver, hdfs]
    rw [if_neg (by simpa [List.isEmpty_iff] using hdfs_ne)]
  · rw [List.length_insertionSort, List.length_map, hflat, preList_length]
  · rw [hflat]
    exact List.perm_insertionSort _ _
  · exact List.sorted_insertionSort _ _

/-- C4, witness. The amended build-shape claim at the sample response
family (data only for the GDP indicator). -/
theorem c4_witness :
    ∃ d, buildOver INDICATORS sampleResp = .ok d ∧
      d.length = (INDICATORS.map fun lc =>
        fetchedLen sampleResp lc.2 COUNTRY_GH + fetchedLen sampleResp lc.2 COUNTRY_US).sum ∧
      d.Perm ((preList sampleResp INDICATORS).map coerceRow) ∧
      List.Sorted rowLe d :=
  c4_build_shape INDICATORS sampleResp (by decide) (by decide)

/-- C5. For every dataset and configured selected label such that some
matching record has a non-null value, `render` produces a Chart whose y-axis
spans `[0, y_max]` — a single range shared by both countries' series — with
`y_max` at least every non-null value among the matching records. -/
theorem c5_ymax_bound (d : List Row) (label code : String)
    (hc : INDICATORS.lookup label = some code) (r : Row) (hr : r ∈ d)
    (hcountry : r.country = COUNTRY_GH ∨ r.country = COUNTRY_US)
    (hcode : r.indicator_code = code) (v : ℚ) (hv : r.value = some v) :
    ∃ m t ds, render d label = .ok (.Chart (combinedRows d code) 0 (some m) t ds) ∧
      ∀ s ∈ d, (s.country = COUNTRY_GH ∨ s.country = COUNTRY_US) →
        s.indicator_code = code → ∀ w : ℚ, s.value = some w → w ≤ m := by
  have hrc : r ∈ combinedRows d code := mem_combined hr hcountry hcode
  have hvmem : v ∈ (combinedRows d code).filterMap (fun s => s.value) :=
    List.mem_filterMap.2 ⟨r, hrc, hv⟩
  obtain ⟨m, hm⟩ := maxQ_isSome (List.ne_nil_of_mem hvmem)
  obtain ⟨-, hchart⟩ := render_eq d label code hc
  obtain ⟨ds, -, hch⟩ := hchart (List.ne_nil_of_mem hrc)
  rw [hm] at hch
  refine ⟨m, label ++ ": Ghana vs USA", ds, hch, ?_⟩
  intro s hs hscountry hscode w hw
  exact le_maxQ hm w (List.mem_filterMap.2 ⟨s, mem_combined hs hscountry hscode, hw⟩)

/-- C5, witness. The y-axis bound at a one-row dataset with value 5. -/
theorem c5_witness :
    ∃ m t ds, render [gdpRow] "GDP per Capita (USD)"
        = .ok (.Chart (combinedRows [gdpRow] "NY.GDP.PCAP.CD") 0 (some m) t ds) ∧
      ∀ s ∈ [gdpRow], (s.country = COUNTRY_GH ∨ s.country = COUNTRY_US) →
        s.indicator_code = "NY.GDP.PCAP.CD" → ∀ w : ℚ, s.value = some w → w ≤ m :=
  c5_ymax_bound [gdpRow] "GDP per Capita (USD)" "NY.GDP.PCAP.CD" (by decide) gdpRow
    (by decide) (by decide) (by decide) 5 (by decide)

/-- C6. For every dataset the builder produced and every configured
selected label: the combined frame `render` charts is exactly the per-country
label-matching sub-views recombined; the two sub-views are disjoint; together
they are (as a multiset) exactly the label-matching rows restricted to the two
configured countries; filtering by the code mapped from the label selects the
same rows as filtering by the label itself; and `render` charts exactly the
combined frame (or signals `NoData`). -/
theorem c6_selected_rows (resp : String → String → HttpResult) (d : List Row)
    (label code : String) (hb : buildDataset resp = .ok d)
    (hc : INDICATORS.lookup label = some code) :
    combinedRows d code
        = d.filter (fun r => (r.country == COUNTRY_GH) && (r.indicator_label == label))
          ++ d.filter (fun r => (r.country == COUNTRY_US) && (r.indicator_label == label)) ∧
    (∀ r ∈ d.filter (fun r => (r.country == COUNTRY_GH) && (r.indicator_label == label)),
      r ∉ d.filter (fun r => (r.country == COUNTRY_US) && (r.indicator_label == label))) ∧
    (combinedRows d code).Perm (d.filter fun r =>
      ((r.country == COUNTRY_GH) || (r.country == COUNTRY_US)) &&
        (r.indicator_label == label)) ∧
    d.filter (fun r => r.indicator_code == code)
        = d.filter (fun r => r.indicator_label == label) ∧
    (render d label = .ok .NoData ∨
      ∃ m t ds, render d label = .ok (.Chart (combinedRows d code) 0 m t ds)) := by
  have hlc : (label, code) ∈ INDICATORS := lookup_mem hc
  have hkey : ∀ r ∈ d, (r.indicator_code == code) = (r.indicator_label == label) := by
    intro r hr
    obtain ⟨hmem, -, -⟩ := build_mem hb r hr
    rw [Bool.eq_iff_iff]
    simp only [beq_iff_eq]
    constructor
    · intro h
      exact congrArg Prod.fst (ind_code_inj _ hmem _ hlc h)
    · intro h
      exact congrArg Prod.snd (ind_label_inj _ hmem _ hlc h)
  have hGh : (ghanaView d).filter (fun r => r.indicator_code == code)
      = d.filter (fun r => (r.country == COUNTRY_GH) && (r.indicator_label == label)) := by
    unfold ghanaView
    rw [List.filter_filter]
    refine List.filter_congr fun r hr => ?_
    rw [hkey r hr]
    exact Bool.and_comm _ _
  have hUs : (usaView d).filter (fun r => r.indicator_code == code)
      = d.filter (fun r => (r.country == COUNTRY_US) && (r.indicator_label == label)) := by
    unfold usaView
    rw [List.filter_filter]
    refine List.filter_congr fun r hr => ?_
    rw [hkey r hr]
    exact Bool.and_comm _ _
  have hsplit : combinedRows d code
      = d.filter (fun r => (r.country == COUNTRY_GH) && (r.indicator_label == label))
        ++ d.filter (fun r => (r.country == COUNTRY_US) && (r.indicator_label == label)) := by
    unfold combinedRows
    rw [hGh, hUs]
  have hdisj : ∀ r : Row,
      ¬(((r.country == COUNTRY_GH) && (r.indicator_label == label)) = true ∧
        ((r.country == COUNTRY_US) && (r.indicator_label == label)) = true) := by
    rintro r ⟨h1, h2⟩
    simp only [Bool.and_eq_true, beq_iff_eq] at h1 h2
    rw [h1.1] at h2
    exact absurd h2.1 (by decide)
  refine ⟨hsplit, ?_, ?_, List.filter_congr hkey, ?_⟩
  · intro r hrG hrU
    exact hdisj r ⟨(List.mem_filter.1 hrG).2, (List.mem_filter.1 hrU).2⟩
  · rw [hsplit]
    refine (filter_append_perm_of_disjoint _ _ d hdisj).trans ?_
    have hpred : ∀ r ∈ d,
        (((r.country == COUNTRY_GH) && (r.indicator_label == label)) ||
          ((r.country == COUNTRY_US) && (r.indicator_label == label)))
        = (((r.country == COUNTRY_GH) || (r.country == COUNTRY_US)) &&
          (r.indicator_label == label)) := by
      intro r _
      cases r.country == COUNTRY_GH <;> cases r.country == COUNTRY_US <;>
        cases r.indicator_label == label <;> rfl
    rw [List.filter_congr hpred]
  · by_cases hnil : combinedRows d code = []
    · exact Or.inl ((render_eq d label code hc).1 hnil)
    · obtain ⟨ds, -, hch⟩ := (render_eq d label code hc).2 hnil
      exact Or.inr ⟨_, _, ds, hch⟩

/-- C6, witness. The selected-rows contract at the concrete dataset built
from the sample response family. -/
theorem c6_witness :
    combinedRows [gdpRow, gdpRowUs] "NY.GDP.PCAP.CD"
        = [gdpRow, gdpRowUs].filter (fun r => (r.country == COUNTRY_GH) &&
            (r.indicator_label == "GDP per Capita (USD)"))
          ++ [gdpRow, gdpRowUs].filter (fun r => (r.country == COUNTRY_US) &&
            (r.indicator_label == "GDP per Capita (USD)")) ∧
    (∀ r ∈ [gdpRow, gdpRowUs].filter (fun r => (r.country == COUNTRY_GH) &&
        (r.indicator_label == "GDP per Capita (USD)")),
      r ∉ [gdpRow, gdpRowUs].filter (fun r => (r.country == COUNTRY_US) &&
        (r.indicator_label == "GDP per Capita (USD)"))) ∧
    (combinedRows [gdpRow, gdpRowUs] "NY.GDP.PCAP.CD").Perm
      ([gdpRow, gdpRowUs].filter fun r =>
        ((r.country == COUNTRY_GH) || (r.country == COUNTRY_US)) &&
          (r.indicator_label == "GDP per Capita (USD)")) ∧
    [gdpRow, gdpRowUs].filter (fun r => r.indicator_code == "NY.GDP.PCAP.CD")
        = [gdpRow, gdpRowUs].filter (fun r => r.indicator_label == "GDP per Capita (USD)") ∧
    (render [gdpRow, gdpRowUs] "GDP per Capita (USD)" = .ok .NoData ∨
      ∃ m t ds, render [gdpRow, gdpRowUs] "GDP per Capita (USD)"
        = .ok (.Chart (combinedRows [gdpRow, gdpRowUs] "NY.GDP.PCAP.CD") 0 m t ds)) :=
  c6_selected_rows sampleResp [gdpRow, gdpRowUs] "GDP per Capita (USD)" "NY.GDP.PCAP.CD"
    (by decide) (by decide)

/-- C7, counterexample. The claim says a network failure makes `fetch`
return an empty sequence and never propagate an error.  On a network failure
the `requests.get` exception propagates out of `fetch_worldbank_data` (there is
no try/except in the source), so the call does not return an empty sequence. -/
theorem c7_counterexample :
    fetch_worldbank_data .requestErr "GHA" "NY.GDP.PCAP.CD" = .error .requestsException ∧
    fetch_worldbank_data .requestErr "GHA" "NY.GDP.PCAP.CD" ≠ .ok [] := by
  decide

/-- C7 (amended). A network failure or an unparseable JSON body propagates
the underlying exception out of `fetch`; only a body that parses to a non-list
JSON value — such as the error object a non-2xx response carries — degrades to
an empty sequence. -/
theorem c7_error_policy (country code : String) (keys : List String) (s : String) :
    fetch_worldbank_data .requestErr country code = .error .requestsException ∧
    fetch_worldbank_data .jsonDecodeErr country code = .error .jsonException ∧
    fetch_worldbank_data (.ok (.pyDict keys)) country code = .ok [] ∧
    fetch_worldbank_data (.ok (.pyStr s)) country code = .ok [] :=
  ⟨rfl, rfl, rfl, rfl⟩

/-- C8. For every parsed response that is not a list — including the
dict-shaped error body — or is a list with fewer than two elements, `fetch`
returns an empty sequence and does not throw. -/
theorem c8_shape_empty (country code : String) (v : PyVal) (elems : List PyVal)
    (hv : ∀ es, v ≠ PyVal.pyList es) (hlen : elems.length < 2) :
    fetch_worldbank_data (.ok v) country code = .ok [] ∧
    fetch_worldbank_data (.ok (.pyList elems)) country code = .ok [] := by
  constructor
  · cases v with
    | pyList es => exact absurd rfl (hv es)
    | pyDict _ => rfl
    | pyRow _ => rfl
    | pyStr _ => rfl
    | pyNull => rfl
  · rcases elems with _ | ⟨e, _ | ⟨f, rest⟩⟩
    · rfl
    · rfl
    · simp only [List.length_cons] at hlen
      omega

/-- C8, witness. The shape policy at the dict-shaped error body (a JSON object
with a message key, not a list) and at a one-element list. -/
theorem c8_witness :
    fetch_worldbank_data (.ok (.pyDict ["message"])) "GHA" "SH.ANM.CHLD.ZS" = .ok [] ∧
    fetch_worldbank_data (.ok (.pyList [.pyDict ["page"]])) "GHA" "SH.ANM.CHLD.ZS" = .ok [] :=
  c8_shape_empty "GHA" "SH.ANM.CHLD.ZS" (.pyDict ["message"]) [.pyDict ["page"]]
    (fun _ h => PyVal.noConfusion h) (by decide)

/-- C9. Every record of a dataset the builder returns carries the code of
exactly one configured indicator spec and one of the two configured countries,
and its (country, indicator) fetch succeeded with a non-empty result — so no
record stems from a failed or empty fetch. -/
theorem c9_dataset_invariant (resp : String → String → HttpResult) (d : List Row)
    (hb : buildDataset resp = .ok d) :
    ∀ r ∈ d,
      (∃! p, p ∈ INDICATORS ∧ r.indicator_code = p.2) ∧
      (r.country = COUNTRY_GH ∨ r.country = COUNTRY_US) ∧
      ∃ rs, fetch_worldbank_data (resp r.country r.indicator_code) r.country r.indicator_code
          = .ok rs ∧ rs ≠ [] := by
  intro r hr
  obtain ⟨hmem, hcountry, hfetch⟩ := build_mem hb r hr
  refine ⟨⟨(r.indicator_label, r.indicator_code), ⟨hmem, rfl⟩, ?_⟩, hcountry, hfetch⟩
  rintro q ⟨hq, hqcode⟩
  exact ind_code_inj q hq _ hmem hqcode.symm

/-- C9, witness. The invariant at one record of the dataset built from the
sample response family. -/
theorem c9_witness :
    (∃! p, p ∈ INDICATORS ∧ gdpRow.indicator_code = p.2) ∧
    (gdpRow.country = COUNTRY_GH ∨ gdpRow.country = COUNTRY_US) ∧
    ∃ rs, fetch_worldbank_data (sampleResp gdpRow.country gdpRow.indicator_code)
        gdpRow.country gdpRow.indicator_code = .ok rs ∧ rs ≠ [] :=
  c9_dataset_invariant sampleResp [gdpRow, gdpRowUs] (by decide) gdpRow (by decide)

/-- C10. In every dataset the builder returns, a record whose year failed
numeric coercion (null year) is never followed by a record with a numeric year:
the sort places null-year rows after all numeric-year rows. -/
theorem c10_null_years_last (resp : String → String → HttpResult) (d : List Row)
    (hb : buildDataset resp = .ok d) :
    d.Pairwise fun a b => a.date = none → b.date = none := by
  refine (build_sorted hb).imp ?_
  intro a b hab hna
  rw [rowLe, hna] at hab
  cases hbd : b.date with
  | none => rfl
  | some y =>
    rw [hbd] at hab
    simp [dateLeB] at hab

/-- C10, witness. Null-year placement on the dataset built from the sample
response family. -/
theorem c10_witness :
    ([gdpRow, gdpRowUs] : List Row).Pairwise fun a b => a.date = none → b.date = none :=
  c10_null_years_last sampleResp [gdpRow, gdpRowUs] (by decide)

end GhanaVis
